import Mathlib

/-!
Shallow embedding of `sdks/typescript/src/apache_beam/transforms/localParDo.ts`
(the only source file of the repository) and proofs about it.

JS objects appearing as keyed mappings (context objects, `transformProto.inputs`,
the `sideInputs` map, `components.pcollections`, `components.windowingStrategies`)
are embedded as association lists with JS object-assignment semantics
(`o[k] = v` replaces an existing key in place or appends a new one).

Object identity and the prototype-chain behaviour of `Object.create` /
`delete` (needed by `copySideInputWithId`) are embedded separately with a
small explicit heap, where an object is an address into a list of records,
each record holding its own properties and an optional prototype address.
-/

set_option autoImplicit false

namespace LocalParDo

/-- JS object own-property lookup `o[k]` on an association list. -/
def lookupKey {A : Type} : List (String × A) → String → Option A
  | [], _ => none
  | (k, v) :: rest, key => if k = key then some v else lookupKey rest key

/-- JS object assignment `o[k] = v`: replace the value at an existing key in
place, otherwise append the new key at the end (JS key-insertion order). -/
def setKey {A : Type} : List (String × A) → String → A → List (String × A)
  | [], key, v => [(key, v)]
  | (k, w) :: rest, key, v =>
    if k = key then (key, v) :: rest else (k, w) :: setKey rest key v

/-- JS `delete o[k]` restricted to own properties. -/
def removeKey {A : Type} : List (String × A) → String → List (String × A)
  | [], _ => []
  | (k, w) :: rest, key =>
    if k = key then removeKey rest key else (k, w) :: removeKey rest key

/-- Keys of an association list, in order. -/
def keysOf {A : Type} (xs : List (String × A)) : List String := xs.map Prod.fst

/-- UTF-8 bytes of a string, i.e. what `new TextEncoder().encode(s)` produces
(the byte list underlying `String.toUTF8`). -/
def utf8Bytes (s : String) : List UInt8 := s.data.flatMap String.utf8EncodeChar

/-- Modelled from the spec: the window-mapping-function urns live in
`../internal/urns`, which is outside the sources; the spec fixes their names
and that they are three distinct urns defined by the shared external protocol.
-/
def GLOBAL_WINDOW_MAPPING_FN_URN : String := "beam:urn:global_window_mapping_fn"

/-- Modelled from the spec: identity window-mapping-function urn,
from `../internal/urns` (outside the sources). -/
def IDENTITY_WINDOW_MAPPING_FN_URN : String := "beam:urn:identity_window_mapping_fn"

/-- Modelled from the spec: assign-max-timestamp window-mapping-function urn,
from `../internal/urns` (outside the sources). -/
def ASSIGN_MAX_TIMESTAMP_WINDOW_MAPPING_FN_URN : String :=
  "beam:urn:assign_max_timestamp_window_mapping_fn"

/-- Modelled from the spec: the local-DoFn export-marker urn
(`urns.LOCAL_DOFN_EXPORT_NAME`, from `../internal/urns`, outside the sources).
-/
def LOCAL_DOFN_EXPORT_NAME : String := "beam:urn:local_dofn_export_name"

/-- `localParDo.urn` from the source: the ParDo transform urn. -/
def localParDo_urn : String := "beam:transform:pardo:v1"

/-- The window-mapping selection written inline in `expandInternal`
(the nested conditional building `windowMappingFn.urn`): `isGlobalSide`
is `sideWindowingStrategy.windowFn!.urn == "beam:window_fn:global_windows:v1"`,
then the strategy ids are compared. -/
def selectWindowMappingFnUrn (mainWindowingStrategyId sideWindowingStrategyId
    sideWindowFnUrn : String) : String :=
  if sideWindowFnUrn = "beam:window_fn:global_windows:v1" then
    GLOBAL_WINDOW_MAPPING_FN_URN
  else if mainWindowingStrategyId = sideWindowingStrategyId then
    IDENTITY_WINDOW_MAPPING_FN_URN
  else
    ASSIGN_MAX_TIMESTAMP_WINDOW_MAPPING_FN_URN

/-- A JS literal value sitting in a context entry (anything that is not a
`SideInputParam`; the `instanceof` test treats every such value alike and
carries it over unchanged). -/
inductive JsVal where
  | str : String → JsVal
  | num : Int → JsVal
  | undef : JsVal
deriving DecidableEq, Repr

/-- `SideInputAccessor`: only `accessPattern` is read during expansion; the
`toValue` function is consumed at run time by the provider and plays no role
in any build-time operation of this file. -/
structure SideInputAccessor where
  accessPattern : String
deriving DecidableEq, Repr

/-- `SideInputParam` as observed by expansion: its `pcoll` is used only via
`pcoll.getId()`, so it is represented by that id; `sideInputId` is unset at
declaration and set only on the tagged copy. -/
structure SideInputParam where
  pcollId : Nat
  accessor : SideInputAccessor
  sideInputId : Option String := none
deriving DecidableEq, Repr

/-- `copySideInputWithId` at the value level: the copy observationally equals
the original with `sideInputId` set (reads of `pcoll` and `accessor` on the
copy are answered through the prototype chain; the heap model below covers
the identity-level behaviour). -/
def copySideInputWithId (sideInput : SideInputParam) (id : String) :
    SideInputParam :=
  { sideInput with sideInputId := some id }

/-- A context entry's value: a literal or a declared side-input parameter
(distinguished in the source by `value instanceof SideInputParam`). -/
inductive CtxVal where
  | lit : JsVal → CtxVal
  | side : SideInputParam → CtxVal
deriving DecidableEq, Repr

/-- A caller-supplied context: either not a keyed mapping
(`typeof context !== "object"`: a scalar or undefined) or a keyed mapping. -/
inductive Context where
  | scalar : JsVal → Context
  | obj : List (String × CtxVal) → Context
deriving DecidableEq, Repr

/-- The registry components read during expansion:
`components.pcollections` maps a PCollection id to its `windowingStrategyId`
(the only field read), and `components.windowingStrategies` maps a strategy id
to its `windowFn.urn` (the only field read). A missing entry models an id the
registry cannot resolve. -/
structure Components where
  pcollections : List (Nat × String)
  windowingStrategies : List (String × String)
deriving DecidableEq, Repr

/-- Lookup in a Nat-keyed mapping (PCollection ids are opaque identifiers). -/
def lookupNatKey {A : Type} : List (Nat × A) → Nat → Option A
  | [], _ => none
  | (k, v) :: rest, key => if k = key then some v else lookupNatKey rest key

/-- Lookup of a PCollection id in `components.pcollections`, yielding the
record's `windowingStrategyId` (the only field read). -/
def Components.pcollWindowingStrategyId (c : Components) (id : Nat) :
    Option String :=
  lookupNatKey c.pcollections id

/-- Lookup of a windowing-strategy id in `components.windowingStrategies`,
yielding the strategy's `windowFn.urn`. -/
def Components.windowFnUrnOf (c : Components) (wsId : String) : Option String :=
  lookupKey c.windowingStrategies wsId

/-- A `FunctionSpec`-shaped piece `{ urn, payload }` with an empty byte
payload, as built for `accessPattern` and `viewFn`. -/
structure UrnPayload where
  urn : String
  payload : List UInt8
deriving DecidableEq, Repr

/-- The `windowMappingFn` piece `{ urn, value }` (the source stores the bytes
under the field name `value`). -/
structure WindowMappingFn where
  urn : String
  value : List UInt8
deriving DecidableEq, Repr

/-- One side-input specification registered under a tag. -/
structure SideInputSpec where
  accessPattern : UrnPayload
  viewFn : UrnPayload
  windowMappingFn : WindowMappingFn
deriving DecidableEq, Repr

/-- `runnerApi.FunctionSpec` for the `doFn` field of the ParDo payload. -/
structure DoFnSpec where
  urn : String
  payload : List UInt8
deriving DecidableEq, Repr

/-- The `ParDoPayload` structure handed to the serializer. -/
structure ParDoPayload where
  doFn : DoFnSpec
  sideInputs : List (String × SideInputSpec)
deriving DecidableEq, Repr

/-- Modelled from the spec: `runnerApi.ParDoPayload.toBinary` is the opaque
wire serializer (outside the sources); embedded as an executable
length-prefixed rendering of the payload into a token list. -/
def encodeUtf8Tokens (s : String) : List Nat :=
  s.utf8ByteSize :: (utf8Bytes s).map (fun b => b.toNat)

/-- Length-prefixed rendering of a byte list for the modelled serializer. -/
def encodeBytesTokens (b : List UInt8) : List Nat :=
  b.length :: b.map (fun x => x.toNat)

/-- Modelled from the spec: rendering of one side-input specification for the
opaque serializer. -/
def SideInputSpec.encodeTokens (s : SideInputSpec) : List Nat :=
  encodeUtf8Tokens s.accessPattern.urn ++ encodeBytesTokens s.accessPattern.payload ++
  encodeUtf8Tokens s.viewFn.urn ++ encodeBytesTokens s.viewFn.payload ++
  encodeUtf8Tokens s.windowMappingFn.urn ++ encodeBytesTokens s.windowMappingFn.value

/-- Modelled from the spec: `ParDoPayload.toBinary`, the opaque wire encoding
of the assembled payload. -/
def ParDoPayload.toBinary (p : ParDoPayload) : List Nat :=
  encodeUtf8Tokens p.doFn.urn ++ encodeBytesTokens p.doFn.payload ++
  p.sideInputs.length ::
    (p.sideInputs.foldr
      (fun kv acc => encodeUtf8Tokens kv.1 ++ kv.2.encodeTokens ++ acc) [])

/-- The transform descriptor's `{ urn, payload }` spec once assigned. -/
structure TransformSpec where
  urn : String
  payload : List Nat
deriving DecidableEq, Repr

/-- The transform descriptor under construction: named inputs (input name to
PCollection id) and the opaque spec (absent until expansion assigns it). -/
structure PTransformProto where
  inputs : List (String × Nat)
  spec : Option TransformSpec
deriving DecidableEq, Repr

/-- A dataset handle: id plus the coder it was created with. -/
structure PCollectionH where
  id : Nat
  coder : String
deriving DecidableEq, Repr

/-- The pipeline as read during expansion: its registry components and the
allocation counter for fresh PCollection ids. -/
structure Pipeline where
  components : Components
  nextPCollId : Nat
deriving DecidableEq, Repr

/-- Modelled from the spec: `pipeline.createPCollectionInternal` (outside the
sources) allocates a fresh dataset handle bound to the given encoder. -/
def Pipeline.createPCollectionInternal (p : Pipeline) (coder : String) :
    Pipeline × PCollectionH :=
  ({ p with nextPCollId := p.nextPCollId + 1 }, ⟨p.nextPCollId, coder⟩)

/-- The `LocalDoFn` fields read during expansion. -/
structure DoFn where
  beamName : Option String
  exportName : String
deriving DecidableEq, Repr

/-- State threaded through the side-input loop of `expandInternal`:
the transform descriptor's inputs, the own properties accumulated on
`contextCopy`, and the `sideInputs` mapping. -/
structure ResolveState where
  inputs : List (String × Nat)
  contextCopy : List (String × CtxVal)
  sideInputs : List (String × SideInputSpec)
deriving DecidableEq, Repr

/-- One iteration of the `for (const [name, value] of Object.entries(context))`
loop. A literal is copied onto `contextCopy` unchanged. A `SideInputParam`
first registers `transformProto.inputs[inputName] = value.pcoll.getId()` and
puts the tagged copy on `contextCopy`, then resolves the main and side
windowing strategies in the registry; an unresolvable id throws there (a
`TypeError` reading a property of `undefined`), after those two mutations. -/
def resolveEntry (components : Components) (mainPCollId : Nat)
    (st : ResolveState) (name : String) (value : CtxVal) :
    ResolveState × Option String :=
  match value with
  | .lit v => ({ st with contextCopy := setKey st.contextCopy name (.lit v) }, none)
  | .side p =>
    let inputName := "side." ++ name
    let inputs1 := setKey st.inputs inputName p.pcollId
    let ctx1 := setKey st.contextCopy name (.side (copySideInputWithId p inputName))
    let st1 : ResolveState := { st with inputs := inputs1, contextCopy := ctx1 }
    match components.pcollWindowingStrategyId mainPCollId with
    | none => (st1, some "TypeError: cannot read windowingStrategyId of undefined")
    | some mainWindowingStrategyId =>
      match components.pcollWindowingStrategyId p.pcollId with
      | none => (st1, some "TypeError: cannot read windowingStrategyId of undefined")
      | some sideWindowingStrategyId =>
        match components.windowFnUrnOf sideWindowingStrategyId with
        | none => (st1, some "TypeError: cannot read windowFn of undefined")
        | some sideWindowFnUrn =>
          let spec : SideInputSpec :=
            { accessPattern := { urn := p.accessor.accessPattern, payload := [] }
              viewFn := { urn := "unused", payload := [] }
              windowMappingFn :=
                { urn := selectWindowMappingFnUrn mainWindowingStrategyId
                    sideWindowingStrategyId sideWindowFnUrn
                  value := [] } }
          ({ st1 with sideInputs := setKey st1.sideInputs inputName spec }, none)

/-- The whole entry loop; a thrown error stops the loop, leaving all mutations
made so far in place. -/
def resolveEntries (components : Components) (mainPCollId : Nat) :
    List (String × CtxVal) → ResolveState → ResolveState × Option String
  | [], st => (st, none)
  | (name, v) :: rest, st =>
    match resolveEntry components mainPCollId st name v with
    | (st1, some e) => (st1, some e)
    | (st1, none) => resolveEntries components mainPCollId rest st1

/-- The Context Resolver part of `expandInternal`: a non-object context is
returned unchanged with no side inputs; an object context is walked entry by
entry. Returns (inputs, rewritten context, side-input mapping) and the error
thrown, if any. -/
def resolveContext (components : Components) (mainPCollId : Nat)
    (context : Context) (inputs0 : List (String × Nat)) :
    (List (String × Nat) × Context × List (String × SideInputSpec)) × Option String :=
  match context with
  | .scalar v => ((inputs0, .scalar v, []), none)
  | .obj entries =>
    let (st, err) := resolveEntries components mainPCollId entries
      { inputs := inputs0, contextCopy := [], sideInputs := [] }
    ((st.inputs, .obj st.contextCopy, st.sideInputs), err)

/-- The result of one call to `expandInternal`: the transform descriptor as
left behind (also on error, since it is mutated in place), the rewritten
context, the pipeline (with the allocation made on success), the returned
output handle, and the error thrown, if any. -/
structure ExpandResult where
  transformProto : PTransformProto
  contextCopy : Context
  pipeline : Pipeline
  output : Option PCollectionH
  error : Option String
deriving DecidableEq, Repr

/-- `expandInternal` from the source: resolve the context's side inputs,
then assemble `transformProto.spec` with `localParDo.urn` and the serialized
`ParDoPayload` whose `doFn` carries the export-marker urn and the UTF-8 bytes
of `doFn.exportName`, and finally allocate the output PCollection with a
`GeneralObjectCoder`. An error thrown during resolution leaves the already
performed descriptor mutations in place and skips spec assembly and output
allocation. -/
def expandInternal (doFn : DoFn) (context : Context) (input : PCollectionH)
    (pipeline : Pipeline) (transformProto : PTransformProto) : ExpandResult :=
  match resolveContext pipeline.components input.id context transformProto.inputs with
  | ((inputs1, ctxCopy, _sideInputs), some e) =>
    { transformProto := { inputs := inputs1, spec := transformProto.spec }
      contextCopy := ctxCopy
      pipeline := pipeline
      output := none
      error := some e }
  | ((inputs1, ctxCopy, sideInputs), none) =>
    let payload := ParDoPayload.toBinary
      { doFn := { urn := LOCAL_DOFN_EXPORT_NAME, payload := utf8Bytes doFn.exportName }
        sideInputs := sideInputs }
    let pc := pipeline.createPCollectionInternal "GeneralObjectCoder"
    { transformProto :=
        { inputs := inputs1
          spec := some { urn := localParDo_urn, payload := payload } }
      contextCopy := ctxCopy
      pipeline := pc.1
      output := some pc.2
      error := none }

/-- The transform's display name: `"parDo(" + (doFn.beamName || doFn.exportName) + ")"`
(the JS `||` falls back on an empty `beamName` too); `extractName` (outside the
sources) is the identity on a plain string name. -/
def localParDoName (doFn : DoFn) : String :=
  "parDo(" ++ (match doFn.beamName with
    | some n => if n = "" then doFn.exportName else n
    | none => doFn.exportName) ++ ")"

/-- The runtime value provider (`ParamProvider`); its `lookup` resolves a
param instance (identified by `paramId`) to a value. -/
structure ParamProvider (T : Type) where
  lookupFn : Nat → T

/-- `ParDoLookupParam`: the base-class fields (`parDoParamName`, the
externally provided `provider`) plus an identity for the instance. -/
structure ParDoLookupParam (T : Type) where
  parDoParamName : String
  paramId : Nat
  provider : Option (ParamProvider T)

/-- `ParDoLookupParam.lookup`: throws when no provider is bound, otherwise
returns `provider.lookup(this)`. -/
def ParDoLookupParam.lookup {T : Type} (p : ParDoLookupParam T) :
    Except String T :=
  match p.provider with
  | none => .error "Cannot be called outside of a DoFn's process method."
  | some pr => .ok (pr.lookupFn p.paramId)

/-- `ParDoUpdateParam`: the base-class fields plus an instance identity. -/
structure ParDoUpdateParam (T : Type) where
  parDoParamName : String
  paramId : Nat
  provider : Option (ParamProvider T)

/-- `ParDoUpdateParam.update`: throws when no provider is bound, otherwise
performs exactly one delegated call `provider.update(this, value)`; the
result lists the delegated (param, value) calls in order. -/
def ParDoUpdateParam.update {T : Type} (p : ParDoUpdateParam T) (value : T) :
    Except String (List (Nat × T)) :=
  match p.provider with
  | none => .error "Cannot be called outside of a DoFn's process method."
  | some _ => .ok [(p.paramId, value)]

/-- Whether a context value is carried over as a literal (everything that is
not a `SideInputParam`; the source tests `value instanceof SideInputParam`). -/
def CtxVal.isLit : CtxVal → Bool
  | .lit _ => true
  | .side _ => false

/-- A heap value: a string or an opaque reference to another object (the
`pcoll` and `accessor` fields hold references). -/
inductive HVal where
  | str : String → HVal
  | ref : Nat → HVal
deriving DecidableEq, Repr

/-- A JS object record: its own properties (in insertion order) and the
address of its prototype, if any. -/
structure ObjRec where
  own : List (String × HVal)
  proto : Option Nat
deriving DecidableEq, Repr

/-- A heap is a list of object records; an address is an index. -/
abbrev Heap : Type := List ObjRec

/-- The record at an address, if allocated. -/
def getRec (h : Heap) (a : Nat) : Option ObjRec := h[a]?

/-- Own-property read (`Object.getOwnPropertyDescriptor`-style). -/
def getOwn (h : Heap) (a : Nat) (k : String) : Option HVal :=
  match getRec h a with
  | none => none
  | some r => lookupKey r.own k

/-- Property read `o.k` walking the prototype chain, with explicit fuel. -/
def getPropFuel : Nat → Heap → Nat → String → Option HVal
  | 0, _, _, _ => none
  | f + 1, h, a, k =>
    match getRec h a with
    | none => none
    | some r =>
      match lookupKey r.own k with
      | some v => some v
      | none =>
        match r.proto with
        | none => none
        | some p => getPropFuel f h p k

/-- Property read `o.k`: enough fuel to walk any acyclic chain in `h`. -/
def getProp (h : Heap) (a : Nat) (k : String) : Option HVal :=
  getPropFuel (h.length + 1) h a k

/-- Every prototype pointer in the heap refers to an allocated address. -/
def heapClosed (h : Heap) : Bool :=
  h.all (fun r =>
    match r.proto with
    | none => true
    | some p => decide (p < h.length))

/-- Own-property write `o.k = v` on the record at an address. -/
def heapSetOwn (h : Heap) (a : Nat) (k : String) (v : HVal) : Heap :=
  match getRec h a with
  | none => h
  | some r => h.set a { r with own := setKey r.own k v }

/-- `delete o.k`: removes the own property only; an inherited property is
untouched (the delete is then a no-op). -/
def heapDeleteOwn (h : Heap) (a : Nat) (k : String) : Heap :=
  match getRec h a with
  | none => h
  | some r => h.set a { r with own := removeKey r.own k }

/-- The constructor `new SideInputParam(pcoll, accessor)` in the heap model:
the instance's own properties are `pcoll` and `accessor` (assigned in the
constructor body); `sideInputId` is only declared, so no own property is
created for it. -/
def heapNewSideInputParam (h : Heap) (pcoll accessor : HVal) : Heap × Nat :=
  (h ++ [{ own := [("pcoll", pcoll), ("accessor", accessor)], proto := none }],
   h.length)

/-- `copySideInputWithId` at the heap level, line by line:
`const copy = Object.create(sideInput)` allocates a fresh object whose
prototype is the original; `copy.sideInputId = id` creates an own property on
the copy; `delete copy.pcoll` deletes an own property of the copy (a no-op,
since `pcoll` is inherited). The original is never written. -/
def heapCopySideInputWithId (h : Heap) (a : Nat) (id : String) : Heap × Nat :=
  let c := h.length
  let h1 := h ++ [{ own := [], proto := some a }]
  let h2 := heapSetOwn h1 c "sideInputId" (.str id)
  let h3 := heapDeleteOwn h2 c "pcoll"
  (h3, c)

/-- Any number of successive taggings of the same original. -/
def tagMany (h : Heap) (a : Nat) (ids : List String) : Heap :=
  ids.foldl (fun hh id => (heapCopySideInputWithId hh a id).1) h

theorem setKey_of_not_mem {A : Type} {xs : List (String × A)} {key : String}
    (v : A) (h : key ∉ xs.map Prod.fst) : setKey xs key v = xs ++ [(key, v)] := by
  induction xs with
  | nil => rfl
  | cons kv rest ih =>
    obtain ⟨k, w⟩ := kv
    simp only [List.map_cons, List.mem_cons, not_or] at h
    simp only [setKey, List.cons_append]
    rw [if_neg (fun hk => h.1 hk.symm), ih h.2]

theorem lookupNatKey_none {A : Type} {ps : List (Nat × A)} {n : Nat}
    (h : ∀ kv ∈ ps, kv.1 < n) : lookupNatKey ps n = none := by
  induction ps with
  | nil => rfl
  | cons kv rest ih =>
    obtain ⟨k, v⟩ := kv
    have hk : k < n := h (k, v) (List.mem_cons_self _ _)
    simp only [lookupNatKey]
    rw [if_neg (Nat.ne_of_lt hk), ih (fun kv hkv => h kv (List.mem_cons_of_mem _ hkv))]

/-- C1: Window-mapping selection follows the fixed three-rule priority: a
global-windows side strategy selects the global window-mapping urn (even when
the strategy ids are equal); otherwise equal main/side windowing-strategy ids
select the identity window-mapping urn; otherwise the assign-max-timestamp
window-mapping urn is selected. -/
theorem windowMappingSelection_threeRules
    (mainId sideId sideWindowFnUrn : String) :
    (sideWindowFnUrn = "beam:window_fn:global_windows:v1" →
      selectWindowMappingFnUrn mainId sideId sideWindowFnUrn =
        GLOBAL_WINDOW_MAPPING_FN_URN) ∧
    (sideWindowFnUrn ≠ "beam:window_fn:global_windows:v1" → mainId = sideId →
      selectWindowMappingFnUrn mainId sideId sideWindowFnUrn =
        IDENTITY_WINDOW_MAPPING_FN_URN) ∧
    (sideWindowFnUrn ≠ "beam:window_fn:global_windows:v1" → mainId ≠ sideId →
      selectWindowMappingFnUrn mainId sideId sideWindowFnUrn =
        ASSIGN_MAX_TIMESTAMP_WINDOW_MAPPING_FN_URN) := by
  refine ⟨fun hg => ?_, fun hg he => ?_, fun hg hne => ?_⟩ <;>
    simp [selectWindowMappingFnUrn, hg, *]

/-- Witness for C1 at concrete inputs: rule 1 fires even when the ids
coincide; rule 2 on equal ids with a non-global side; rule 3 on distinct ids
with a non-global side. -/
theorem windowMappingSelection_threeRules_witness :
    selectWindowMappingFnUrn "W1" "W1" "beam:window_fn:global_windows:v1" =
      GLOBAL_WINDOW_MAPPING_FN_URN ∧
    selectWindowMappingFnUrn "W1" "W1" "beam:window_fn:fixed_windows:v1" =
      IDENTITY_WINDOW_MAPPING_FN_URN ∧
    selectWindowMappingFnUrn "W1" "W2" "beam:window_fn:fixed_windows:v1" =
      ASSIGN_MAX_TIMESTAMP_WINDOW_MAPPING_FN_URN :=
  ⟨(windowMappingSelection_threeRules "W1" "W1" _).1 rfl,
   (windowMappingSelection_threeRules "W1" "W1" _).2.1 (by decide) rfl,
   (windowMappingSelection_threeRules "W1" "W2" _).2.2 (by decide) (by decide)⟩

/-- C4: with no provider bound, `lookup` and `update` fail synchronously with
the usage error; with a provider bound, `lookup` returns exactly the value
the provider associates with that param instance, and `update` delegates the
value unchanged to the provider exactly once. -/
theorem paramBindingContract {T : Type} (pL : ParDoLookupParam T)
    (pU : ParDoUpdateParam T) (pr : ParamProvider T) (v : T)
    (hL : pL.provider = none) (hU : pU.provider = none) :
    pL.lookup = .error "Cannot be called outside of a DoFn's process method." ∧
    pU.update v = .error "Cannot be called outside of a DoFn's process method." ∧
    ParDoLookupParam.lookup { pL with provider := some pr } =
      .ok (pr.lookupFn pL.paramId) ∧
    ParDoUpdateParam.update { pU with provider := some pr } v =
      .ok [(pU.paramId, v)] := by
  refine ⟨?_, ?_, rfl, rfl⟩ <;>
    simp [ParDoLookupParam.lookup, ParDoUpdateParam.update, hL, hU]

/-- Witness for C4: a fresh Nat-valued lookup param and update param, and a
stub provider resolving a param id to id + 41. -/
theorem paramBindingContract_witness :
    ParDoLookupParam.lookup (⟨"sideInput", 0, none⟩ : ParDoLookupParam Nat) =
      .error "Cannot be called outside of a DoFn's process method." ∧
    ParDoUpdateParam.update (⟨"state", 1, none⟩ : ParDoUpdateParam Nat) 5 =
      .error "Cannot be called outside of a DoFn's process method." ∧
    ParDoLookupParam.lookup (⟨"sideInput", 0, some ⟨fun n => n + 41⟩⟩ :
      ParDoLookupParam Nat) = .ok 41 ∧
    ParDoUpdateParam.update (⟨"state", 1, some ⟨fun n => n + 41⟩⟩ :
      ParDoUpdateParam Nat) 5 = .ok [(1, 5)] :=
  paramBindingContract ⟨"sideInput", 0, none⟩ ⟨"state", 1, none⟩
    ⟨fun n => n + 41⟩ 5 rfl rfl

/-- C7: a context that is not a keyed mapping is returned unchanged as the
rewritten context, and the side-input mapping is empty. -/
theorem nonObjectContext_unchanged (doFn : DoFn) (v : JsVal)
    (input : PCollectionH) (pipeline : Pipeline) (proto : PTransformProto) :
    (expandInternal doFn (.scalar v) input pipeline proto).contextCopy =
      .scalar v ∧
    (expandInternal doFn (.scalar v) input pipeline proto).error = none ∧
    resolveContext pipeline.components input.id (.scalar v) proto.inputs =
      ((proto.inputs, .scalar v, []), none) :=
  ⟨rfl, rfl, rfl⟩

theorem resolveEntries_allLit (c : Components) (m : Nat) :
    ∀ (entries : List (String × CtxVal)) (st : ResolveState),
      (∀ kv ∈ entries, kv.2.isLit = true) →
      (∀ kv ∈ entries, kv.1 ∉ st.contextCopy.map Prod.fst) →
      (entries.map Prod.fst).Nodup →
      resolveEntries c m entries st =
        ({ st with contextCopy := st.contextCopy ++ entries }, none) := by
  intro entries
  induction entries with
  | nil => intro st _ _ _; simp [resolveEntries]
  | cons kv rest ih =>
    intro st hlit hdisj hnodup
    obtain ⟨k, v⟩ := kv
    cases v with
    | side p =>
      have hfalse := hlit (k, .side p) (List.mem_cons_self _ _)
      simp [CtxVal.isLit] at hfalse
    | lit x =>
      have hk : k ∉ st.contextCopy.map Prod.fst :=
        hdisj (k, .lit x) (List.mem_cons_self _ _)
      have hstep : resolveEntry c m st k (.lit x) =
          ({ st with contextCopy := st.contextCopy ++ [(k, .lit x)] }, none) := by
        simp [resolveEntry, setKey_of_not_mem _ hk]
      rw [List.map_cons] at hnodup
      obtain ⟨hknotin, hrest⟩ := List.nodup_cons.mp hnodup
      have hdisj2 : ∀ kv ∈ rest,
          kv.1 ∉ (st.contextCopy ++ [(k, CtxVal.lit x)]).map Prod.fst := by
        intro kv hkv
        simp only [List.map_append, List.map_cons, List.map_nil,
          List.mem_append, List.mem_cons, List.not_mem_nil, not_or]
        refine ⟨fun hm => hdisj kv (List.mem_cons_of_mem _ hkv) hm, fun he => ?_, id⟩
        have hmem : kv.1 ∈ rest.map Prod.fst := List.mem_map_of_mem Prod.fst hkv
        exact hknotin (he ▸ hmem)
      have hlit2 : ∀ kv ∈ rest, kv.2.isLit = true :=
        fun kv hkv => hlit kv (List.mem_cons_of_mem _ hkv)
      calc resolveEntries c m ((k, CtxVal.lit x) :: rest) st
          = resolveEntries c m rest
              { st with contextCopy := st.contextCopy ++ [(k, .lit x)] } := by
            simp [resolveEntries, hstep]
        _ = ({ st with contextCopy := st.contextCopy ++ ((k, CtxVal.lit x) :: rest) },
              none) := by
            rw [ih _ hlit2 hdisj2 hrest]
            simp

theorem resolveEntries_append (c : Components) (m : Nat) :
    ∀ (l1 l2 : List (String × CtxVal)) (st : ResolveState),
      resolveEntries c m (l1 ++ l2) st =
        (match resolveEntries c m l1 st with
         | (st1, some e) => (st1, some e)
         | (st1, none) => resolveEntries c m l2 st1) := by
  intro l1
  induction l1 with
  | nil => intro l2 st; rfl
  | cons kv rest ih =>
    intro l2 st
    obtain ⟨k, v⟩ := kv
    simp only [List.cons_append, resolveEntries]
    cases hstep : resolveEntry c m st k v with
    | mk st1 err =>
      cases err with
      | some e => simp
      | none => simp [ih]

/-- C6: a keyed-mapping context containing no side-input parameter yields an
empty side-input mapping, a rewritten context structurally equal to the input
context (every literal entry carried over unchanged), and an unchanged
transform descriptor. -/
theorem literalContext_carriedUnchanged (doFn : DoFn)
    (entries : List (String × CtxVal)) (input : PCollectionH)
    (pipeline : Pipeline) (proto : PTransformProto)
    (hlit : ∀ kv ∈ entries, kv.2.isLit = true)
    (hnodup : (entries.map Prod.fst).Nodup) :
    (expandInternal doFn (.obj entries) input pipeline proto).contextCopy =
      .obj entries ∧
    (expandInternal doFn (.obj entries) input pipeline proto).error = none ∧
    (expandInternal doFn (.obj entries) input pipeline
        proto).transformProto.inputs = proto.inputs ∧
    (resolveContext pipeline.components input.id (.obj entries)
        proto.inputs).1.2.2 = [] := by
  have hres : resolveContext pipeline.components input.id (.obj entries)
      proto.inputs = ((proto.inputs, .obj entries, []), none) := by
    simp [resolveContext,
      resolveEntries_allLit pipeline.components input.id entries
        ⟨proto.inputs, [], []⟩ hlit (by simp) hnodup]
  refine ⟨?_, ?_, ?_, ?_⟩ <;> simp [expandInternal, hres]

/-- Witness for C6: a two-entry all-literal context is carried over
unchanged and produces no side inputs. -/
theorem literalContext_carriedUnchanged_witness :
    (expandInternal ⟨none, "f"⟩
        (.obj [("a", .lit (.num 1)), ("b", .lit (.str "s"))]) ⟨0, "c"⟩
        ⟨⟨[], []⟩, 3⟩ ⟨[("main", 0)], none⟩).contextCopy =
      .obj [("a", .lit (.num 1)), ("b", .lit (.str "s"))] ∧
    (expandInternal ⟨none, "f"⟩
        (.obj [("a", .lit (.num 1)), ("b", .lit (.str "s"))]) ⟨0, "c"⟩
        ⟨⟨[], []⟩, 3⟩ ⟨[("main", 0)], none⟩).error = none ∧
    (expandInternal ⟨none, "f"⟩
        (.obj [("a", .lit (.num 1)), ("b", .lit (.str "s"))]) ⟨0, "c"⟩
        ⟨⟨[], []⟩, 3⟩ ⟨[("main", 0)], none⟩).transformProto.inputs =
      [("main", 0)] ∧
    (resolveContext (⟨[], []⟩ : Components) 0
        (.obj [("a", .lit (.num 1)), ("b", .lit (.str "s"))])
        [("main", 0)]).1.2.2 = [] :=
  literalContext_carriedUnchanged ⟨none, "f"⟩
    [("a", .lit (.num 1)), ("b", .lit (.str "s"))] ⟨0, "c"⟩
    ⟨⟨[], []⟩, 3⟩ ⟨[("main", 0)], none⟩ (by decide) (by decide)

/-- C2: for a keyed-mapping context with exactly one side-input parameter
under key k (all other entries literal), expansion adds exactly one
additional input keyed "side." ++ k whose value is the side PCollection's id,
emits exactly one side-input specification under that tag whose accessPattern
urn equals the accessor's declared access pattern, and the rewritten context
holds under k a tagged copy whose sideInputId equals "side." ++ k. -/
theorem singleSideInput_registration (doFn : DoFn)
    (pre post : List (String × CtxVal)) (k : String) (p : SideInputParam)
    (input : PCollectionH) (pipeline : Pipeline) (proto : PTransformProto)
    (mainWs sideWs sideUrn : String)
    (hpre : ∀ kv ∈ pre, kv.2.isLit = true)
    (hpost : ∀ kv ∈ post, kv.2.isLit = true)
    (hnodup : ((pre ++ (k, CtxVal.side p) :: post).map Prod.fst).Nodup)
    (hmain : pipeline.components.pcollWindowingStrategyId input.id = some mainWs)
    (hside : pipeline.components.pcollWindowingStrategyId p.pcollId = some sideWs)
    (hurn : pipeline.components.windowFnUrnOf sideWs = some sideUrn)
    (htag : ("side." ++ k) ∉ proto.inputs.map Prod.fst) :
    (expandInternal doFn (.obj (pre ++ (k, CtxVal.side p) :: post)) input
        pipeline proto).error = none ∧
    (expandInternal doFn (.obj (pre ++ (k, CtxVal.side p) :: post)) input
        pipeline proto).transformProto.inputs =
      proto.inputs ++ [("side." ++ k, p.pcollId)] ∧
    (resolveContext pipeline.components input.id
        (.obj (pre ++ (k, CtxVal.side p) :: post)) proto.inputs).1.2.2 =
      [("side." ++ k,
        { accessPattern := { urn := p.accessor.accessPattern, payload := [] }
          viewFn := { urn := "unused", payload := [] }
          windowMappingFn :=
            { urn := selectWindowMappingFnUrn mainWs sideWs sideUrn
              value := [] } })] ∧
    (expandInternal doFn (.obj (pre ++ (k, CtxVal.side p) :: post)) input
        pipeline proto).contextCopy =
      .obj (pre ++ (k, CtxVal.side (copySideInputWithId p ("side." ++ k))) :: post) ∧
    (copySideInputWithId p ("side." ++ k)).sideInputId = some ("side." ++ k) := by
  rw [List.map_append, List.map_cons] at hnodup
  obtain ⟨hndpre, hndrest, hdisj⟩ := List.nodup_append.mp hnodup
  obtain ⟨hkpost, hndpost⟩ := List.nodup_cons.mp hndrest
  have hkpre : k ∉ pre.map Prod.fst := fun hk => hdisj hk (List.mem_cons_self _ _)
  have h1 : resolveEntries pipeline.components input.id pre
      ⟨proto.inputs, [], []⟩ = (⟨proto.inputs, pre, []⟩, none) := by
    have h := resolveEntries_allLit pipeline.components input.id pre
      ⟨proto.inputs, [], []⟩ hpre (by simp) hndpre
    simpa using h
  have hstep : resolveEntry pipeline.components input.id
      ⟨proto.inputs, pre, []⟩ k (.side p) =
      (⟨proto.inputs ++ [("side." ++ k, p.pcollId)],
        pre ++ [(k, .side (copySideInputWithId p ("side." ++ k)))],
        [("side." ++ k,
          { accessPattern := { urn := p.accessor.accessPattern, payload := [] }
            viewFn := { urn := "unused", payload := [] }
            windowMappingFn :=
              { urn := selectWindowMappingFnUrn mainWs sideWs sideUrn
                value := [] } })]⟩, none) := by
    simp [resolveEntry, hmain, hside, hurn, setKey_of_not_mem _ htag,
      setKey_of_not_mem _ hkpre, setKey]
  have hdisj2 : ∀ kv ∈ post, kv.1 ∉
      (pre ++ [(k, CtxVal.side (copySideInputWithId p ("side." ++ k)))]).map
        Prod.fst := by
    intro kv hkv
    simp only [List.map_append, List.map_cons, List.map_nil, List.mem_append,
      List.mem_cons, List.not_mem_nil, not_or]
    have hmem : kv.1 ∈ post.map Prod.fst := List.mem_map_of_mem Prod.fst hkv
    refine ⟨fun hm => hdisj hm (List.mem_cons_of_mem _ hmem), fun he => ?_, id⟩
    exact hkpost (he ▸ hmem)
  have h2 : resolveEntries pipeline.components input.id post
      (⟨proto.inputs ++ [("side." ++ k, p.pcollId)],
        pre ++ [(k, .side (copySideInputWithId p ("side." ++ k)))],
        [("side." ++ k,
          { accessPattern := { urn := p.accessor.accessPattern, payload := [] }
            viewFn := { urn := "unused", payload := [] }
            windowMappingFn :=
              { urn := selectWindowMappingFnUrn mainWs sideWs sideUrn
                value := [] } })]⟩ : ResolveState) =
      (⟨proto.inputs ++ [("side." ++ k, p.pcollId)],
        (pre ++ [(k, .side (copySideInputWithId p ("side." ++ k)))]) ++ post,
        [("side." ++ k,
          { accessPattern := { urn := p.accessor.accessPattern, payload := [] }
            viewFn := { urn := "unused", payload := [] }
            windowMappingFn :=
              { urn := selectWindowMappingFnUrn mainWs sideWs sideUrn
                value := [] } })]⟩, none) := by
    have h := resolveEntries_allLit pipeline.components input.id post
      (⟨proto.inputs ++ [("side." ++ k, p.pcollId)],
        pre ++ [(k, .side (copySideInputWithId p ("side." ++ k)))],
        [("side." ++ k,
          { accessPattern := { urn := p.accessor.accessPattern, payload := [] }
            viewFn := { urn := "unused", payload := [] }
            windowMappingFn :=
              { urn := selectWindowMappingFnUrn mainWs sideWs sideUrn
                value := [] } })]⟩ : ResolveState)
      hpost hdisj2 hndpost
    simpa using h
  have hres : resolveContext pipeline.components input.id
      (.obj (pre ++ (k, CtxVal.side p) :: post)) proto.inputs =
      ((proto.inputs ++ [("side." ++ k, p.pcollId)],
        .obj (pre ++ (k, CtxVal.side (copySideInputWithId p ("side." ++ k)))
          :: post),
        [("side." ++ k,
          { accessPattern := { urn := p.accessor.accessPattern, payload := [] }
            viewFn := { urn := "unused", payload := [] }
            windowMappingFn :=
              { urn := selectWindowMappingFnUrn mainWs sideWs sideUrn
                value := [] } })]), none) := by
    simp only [resolveContext, resolveEntries_append pipeline.components
      input.id pre ((k, CtxVal.side p) :: post), h1, resolveEntries, hstep, h2]
    simp
  refine ⟨?_, ?_, ?_, ?_, rfl⟩ <;> simp [expandInternal, hres]

/-- Witness for C2: one literal entry plus the side input "threshold" on
PCollection 5, with main strategy W1 and side strategy W2 resolvable. -/
theorem singleSideInput_registration_witness :
    (expandInternal ⟨none, "double"⟩
        (.obj ([("a", .lit (.num 1))] ++ ("threshold",
          CtxVal.side ⟨5, ⟨"beam:side_input:iterable:v1"⟩, none⟩) :: []))
        ⟨0, "c"⟩ ⟨⟨[(0, "W1"), (5, "W2")], [("W1", "u1"), ("W2", "u2")]⟩, 7⟩
        ⟨[("main", 0)], none⟩).error = none ∧
    (expandInternal ⟨none, "double"⟩
        (.obj ([("a", .lit (.num 1))] ++ ("threshold",
          CtxVal.side ⟨5, ⟨"beam:side_input:iterable:v1"⟩, none⟩) :: []))
        ⟨0, "c"⟩ ⟨⟨[(0, "W1"), (5, "W2")], [("W1", "u1"), ("W2", "u2")]⟩, 7⟩
        ⟨[("main", 0)], none⟩).transformProto.inputs =
      [("main", 0)] ++ [("side." ++ "threshold", 5)] ∧
    (resolveContext (⟨[(0, "W1"), (5, "W2")], [("W1", "u1"), ("W2", "u2")]⟩ :
        Components) 0
        (.obj ([("a", .lit (.num 1))] ++ ("threshold",
          CtxVal.side ⟨5, ⟨"beam:side_input:iterable:v1"⟩, none⟩) :: []))
        [("main", 0)]).1.2.2 =
      [("side." ++ "threshold",
        { accessPattern := { urn := "beam:side_input:iterable:v1", payload := [] }
          viewFn := { urn := "unused", payload := [] }
          windowMappingFn :=
            { urn := selectWindowMappingFnUrn "W1" "W2" "u2", value := [] } })] ∧
    (expandInternal ⟨none, "double"⟩
        (.obj ([("a", .lit (.num 1))] ++ ("threshold",
          CtxVal.side ⟨5, ⟨"beam:side_input:iterable:v1"⟩, none⟩) :: []))
        ⟨0, "c"⟩ ⟨⟨[(0, "W1"), (5, "W2")], [("W1", "u1"), ("W2", "u2")]⟩, 7⟩
        ⟨[("main", 0)], none⟩).contextCopy =
      .obj ([("a", .lit (.num 1))] ++ ("threshold",
        CtxVal.side (copySideInputWithId ⟨5, ⟨"beam:side_input:iterable:v1"⟩,
          none⟩ ("side." ++ "threshold"))) :: []) ∧
    (copySideInputWithId (⟨5, ⟨"beam:side_input:iterable:v1"⟩, none⟩ :
      SideInputParam) ("side." ++ "threshold")).sideInputId =
      some ("side." ++ "threshold") :=
  singleSideInput_registration ⟨none, "double"⟩ [("a", .lit (.num 1))] []
    "threshold" ⟨5, ⟨"beam:side_input:iterable:v1"⟩, none⟩ ⟨0, "c"⟩
    ⟨⟨[(0, "W1"), (5, "W2")], [("W1", "u1"), ("W2", "u2")]⟩, 7⟩
    ⟨[("main", 0)], none⟩ "W1" "W2" "u2" (by decide) (by decide) (by decide)
    (by decide) (by decide) (by decide) (by decide)

/-- C3: every expansion that completes assembles the transform descriptor's
spec with urn "beam:transform:pardo:v1" and payload the binary encoding of a
ParDoPayload whose doFn carries the local-DoFn export-marker urn and the
UTF-8 bytes of doFn.exportName, and whose sideInputs map is the resolver's
tag-to-specification mapping; and it returns a freshly allocated output
PCollection (a new id, unknown to the registry) with a GeneralObjectCoder. -/
theorem expandAssemblesSpecAndOutput (doFn : DoFn) (context : Context)
    (input : PCollectionH) (pipeline : Pipeline) (proto : PTransformProto)
    (herr : (expandInternal doFn context input pipeline proto).error = none)
    (hwf : ∀ kv ∈ pipeline.components.pcollections,
      kv.1 < pipeline.nextPCollId) :
    (expandInternal doFn context input pipeline proto).transformProto.spec =
      some { urn := localParDo_urn
             payload := ParDoPayload.toBinary
               { doFn := { urn := LOCAL_DOFN_EXPORT_NAME
                           payload := utf8Bytes doFn.exportName }
                 sideInputs := (resolveContext pipeline.components input.id
                   context proto.inputs).1.2.2 } } ∧
    (expandInternal doFn context input pipeline proto).output =
      some { id := pipeline.nextPCollId, coder := "GeneralObjectCoder" } ∧
    (expandInternal doFn context input pipeline proto).pipeline.nextPCollId =
      pipeline.nextPCollId + 1 ∧
    pipeline.components.pcollWindowingStrategyId pipeline.nextPCollId =
      none := by
  rcases hres : resolveContext pipeline.components input.id context
    proto.inputs with ⟨⟨i, cc, si⟩, err⟩
  cases err with
  | some e => simp [expandInternal, hres] at herr
  | none =>
    refine ⟨?_, ?_, ?_, ?_⟩
    · simp [expandInternal, hres]
    · simp [expandInternal, hres, Pipeline.createPCollectionInternal]
    · simp [expandInternal, hres, Pipeline.createPCollectionInternal]
    · exact lookupNatKey_none hwf

/-- Witness for C3: scalar context, registry holding one PCollection with id
0, allocation counter 7; expansion succeeds and allocates id 7. -/
theorem expandAssemblesSpecAndOutput_witness :
    (expandInternal ⟨none, "double"⟩ (.scalar .undef) ⟨0, "c"⟩
        ⟨⟨[(0, "W1")], [("W1", "u1")]⟩, 7⟩
        ⟨[("main", 0)], none⟩).transformProto.spec =
      some { urn := localParDo_urn
             payload := ParDoPayload.toBinary
               { doFn := { urn := LOCAL_DOFN_EXPORT_NAME
                           payload := utf8Bytes "double" }
                 sideInputs := (resolveContext
                   (⟨[(0, "W1")], [("W1", "u1")]⟩ : Components) 0
                   (.scalar .undef) [("main", 0)]).1.2.2 } } ∧
    (expandInternal ⟨none, "double"⟩ (.scalar .undef) ⟨0, "c"⟩
        ⟨⟨[(0, "W1")], [("W1", "u1")]⟩, 7⟩ ⟨[("main", 0)], none⟩).output =
      some { id := 7, coder := "GeneralObjectCoder" } ∧
    (expandInternal ⟨none, "double"⟩ (.scalar .undef) ⟨0, "c"⟩
        ⟨⟨[(0, "W1")], [("W1", "u1")]⟩, 7⟩
        ⟨[("main", 0)], none⟩).pipeline.nextPCollId = 7 + 1 ∧
    Components.pcollWindowingStrategyId
      (⟨[(0, "W1")], [("W1", "u1")]⟩ : Components) 7 = none :=
  expandAssemblesSpecAndOutput ⟨none, "double"⟩ (.scalar .undef) ⟨0, "c"⟩
    ⟨⟨[(0, "W1")], [("W1", "u1")]⟩, 7⟩ ⟨[("main", 0)], none⟩ rfl (by decide)

/-- C8 counterexample: with a registry that cannot resolve the referenced
ids, the build throws, yet the side input has already been registered on the
transform descriptor's inputs — refuting "the build call fails before
anything is registered on the transform descriptor" even in the
single-side-input case. -/
theorem sideInputFailure_registersInput_cex :
    (expandInternal ⟨none, "f"⟩ (.obj [("k", .side ⟨5, ⟨"ap"⟩, none⟩)])
        ⟨0, "c"⟩ ⟨⟨[], []⟩, 7⟩ ⟨[("main", 0)], none⟩).error.isSome = true ∧
    lookupKey (expandInternal ⟨none, "f"⟩
        (.obj [("k", .side ⟨5, ⟨"ap"⟩, none⟩)]) ⟨0, "c"⟩ ⟨⟨[], []⟩, 7⟩
        ⟨[("main", 0)], none⟩).transformProto.inputs "side.k" = some 5 := by
  decide

/-- C8 amended: in the single-side-input case, if a referenced dataset handle
or windowing strategy cannot be resolved, the build fails with an error that
surfaces before the spec is assembled and before any output PCollection is
allocated — but the side input's entry has already been registered on the
transform descriptor's inputs (and the rewritten context already holds the
tagged copy) when the failure surfaces. -/
theorem sideInputFailure_partialRegistration (doFn : DoFn) (k : String)
    (p : SideInputParam) (input : PCollectionH) (pipeline : Pipeline)
    (proto : PTransformProto)
    (herr : (expandInternal doFn (.obj [(k, CtxVal.side p)]) input pipeline
      proto).error ≠ none) :
    (expandInternal doFn (.obj [(k, CtxVal.side p)]) input pipeline
        proto).transformProto.spec = proto.spec ∧
    (expandInternal doFn (.obj [(k, CtxVal.side p)]) input pipeline
        proto).output = none ∧
    (expandInternal doFn (.obj [(k, CtxVal.side p)]) input pipeline
        proto).pipeline = pipeline ∧
    (expandInternal doFn (.obj [(k, CtxVal.side p)]) input pipeline
        proto).transformProto.inputs =
      setKey proto.inputs ("side." ++ k) p.pcollId ∧
    (expandInternal doFn (.obj [(k, CtxVal.side p)]) input pipeline
        proto).contextCopy =
      .obj [(k, CtxVal.side (copySideInputWithId p ("side." ++ k)))] := by
  cases hmain : pipeline.components.pcollWindowingStrategyId input.id with
  | none =>
    refine ⟨?_, ?_, ?_, ?_, ?_⟩ <;>
      simp [expandInternal, resolveContext, resolveEntries, resolveEntry,
        hmain, setKey]
  | some mainWs =>
    cases hside : pipeline.components.pcollWindowingStrategyId p.pcollId with
    | none =>
      refine ⟨?_, ?_, ?_, ?_, ?_⟩ <;>
        simp [expandInternal, resolveContext, resolveEntries, resolveEntry,
          hmain, hside, setKey]
    | some sideWs =>
      cases hurn : pipeline.components.windowFnUrnOf sideWs with
      | none =>
        refine ⟨?_, ?_, ?_, ?_, ?_⟩ <;>
          simp [expandInternal, resolveContext, resolveEntries, resolveEntry,
            hmain, hside, hurn, setKey]
      | some u =>
        exact absurd (by
          simp [expandInternal, resolveContext, resolveEntries, resolveEntry,
            hmain, hside, hurn]) herr

/-- Witness for C8 amended: an empty registry makes resolution fail; the spec
stays unassigned, no output is allocated, but the side input is registered. -/
theorem sideInputFailure_partialRegistration_witness :
    (expandInternal ⟨none, "f"⟩ (.obj [("k", CtxVal.side ⟨5, ⟨"ap"⟩, none⟩)])
        ⟨0, "c"⟩ ⟨⟨[], []⟩, 7⟩ ⟨[("main", 0)], none⟩).transformProto.spec =
      none ∧
    (expandInternal ⟨none, "f"⟩ (.obj [("k", CtxVal.side ⟨5, ⟨"ap"⟩, none⟩)])
        ⟨0, "c"⟩ ⟨⟨[], []⟩, 7⟩ ⟨[("main", 0)], none⟩).output = none ∧
    (expandInternal ⟨none, "f"⟩ (.obj [("k", CtxVal.side ⟨5, ⟨"ap"⟩, none⟩)])
        ⟨0, "c"⟩ ⟨⟨[], []⟩, 7⟩ ⟨[("main", 0)], none⟩).pipeline =
      ⟨⟨[], []⟩, 7⟩ ∧
    (expandInternal ⟨none, "f"⟩ (.obj [("k", CtxVal.side ⟨5, ⟨"ap"⟩, none⟩)])
        ⟨0, "c"⟩ ⟨⟨[], []⟩, 7⟩
        ⟨[("main", 0)], none⟩).transformProto.inputs =
      setKey [("main", 0)] ("side." ++ "k") 5 ∧
    (expandInternal ⟨none, "f"⟩ (.obj [("k", CtxVal.side ⟨5, ⟨"ap"⟩, none⟩)])
        ⟨0, "c"⟩ ⟨⟨[], []⟩, 7⟩ ⟨[("main", 0)], none⟩).contextCopy =
      .obj [("k", CtxVal.side (copySideInputWithId ⟨5, ⟨"ap"⟩, none⟩
        ("side." ++ "k")))] :=
  sideInputFailure_partialRegistration ⟨none, "f"⟩ "k" ⟨5, ⟨"ap"⟩, none⟩
    ⟨0, "c"⟩ ⟨⟨[], []⟩, 7⟩ ⟨[("main", 0)], none⟩ (by decide)

/-- C9 counterexample: building with an empty exportName raises no usage
error — the expansion completes normally and returns an output PCollection,
refuting "building the transform fails when doFn.exportName is empty". -/
theorem emptyExportName_accepted_cex :
    (expandInternal ⟨none, ""⟩ (.scalar .undef) ⟨0, "c"⟩ ⟨⟨[], []⟩, 7⟩
        ⟨[("main", 0)], none⟩).error = none ∧
    (expandInternal ⟨none, ""⟩ (.scalar .undef) ⟨0, "c"⟩ ⟨⟨[], []⟩, 7⟩
        ⟨[("main", 0)], none⟩).output = some ⟨7, "GeneralObjectCoder"⟩ := by
  decide

/-- C9 amended: no validation of doFn.exportName is performed anywhere in the
build: whenever context resolution succeeds, expansion with an empty
exportName succeeds, encoding the empty name as an empty doFn payload. -/
theorem emptyExportName_noValidation (doFn : DoFn) (context : Context)
    (input : PCollectionH) (pipeline : Pipeline) (proto : PTransformProto)
    (hname : doFn.exportName = "")
    (hres : (resolveContext pipeline.components input.id context
      proto.inputs).2 = none) :
    (expandInternal doFn context input pipeline proto).error = none ∧
    (expandInternal doFn context input pipeline proto).transformProto.spec =
      some { urn := localParDo_urn
             payload := ParDoPayload.toBinary
               { doFn := { urn := LOCAL_DOFN_EXPORT_NAME, payload := [] }
                 sideInputs := (resolveContext pipeline.components input.id
                   context proto.inputs).1.2.2 } } ∧
    (expandInternal doFn context input pipeline proto).output.isSome =
      true := by
  rcases hres2 : resolveContext pipeline.components input.id context
    proto.inputs with ⟨⟨i, cc, si⟩, err⟩
  rw [hres2] at hres
  cases err with
  | some e => simp at hres
  | none =>
    have hbytes : utf8Bytes doFn.exportName = [] := by
      rw [hname]; rfl
    refine ⟨?_, ?_, ?_⟩ <;> simp [expandInternal, hres2, hbytes]

/-- Witness for C9 amended: empty exportName, scalar context; expansion
succeeds with an empty doFn payload. -/
theorem emptyExportName_noValidation_witness :
    (expandInternal ⟨none, ""⟩ (.scalar .undef) ⟨0, "c"⟩ ⟨⟨[], []⟩, 7⟩
        ⟨[("main", 0)], none⟩).error = none ∧
    (expandInternal ⟨none, ""⟩ (.scalar .undef) ⟨0, "c"⟩ ⟨⟨[], []⟩, 7⟩
        ⟨[("main", 0)], none⟩).transformProto.spec =
      some { urn := localParDo_urn
             payload := ParDoPayload.toBinary
               { doFn := { urn := LOCAL_DOFN_EXPORT_NAME, payload := [] }
                 sideInputs := (resolveContext (⟨[], []⟩ : Components) 0
                   (.scalar .undef) [("main", 0)]).1.2.2 } } ∧
    (expandInternal ⟨none, ""⟩ (.scalar .undef) ⟨0, "c"⟩ ⟨⟨[], []⟩, 7⟩
        ⟨[("main", 0)], none⟩).output.isSome = true :=
  emptyExportName_noValidation ⟨none, ""⟩ (.scalar .undef) ⟨0, "c"⟩
    ⟨⟨[], []⟩, 7⟩ ⟨[("main", 0)], none⟩ rfl rfl

theorem getRec_append_lt (h l : Heap) (b : Nat) (hb : b < h.length) :
    getRec (h ++ l) b = getRec h b := by
  simp [getRec, List.getElem?_append_left hb]

theorem getRec_concat_self (h : Heap) (r : ObjRec) :
    getRec (h ++ [r]) h.length = some r := by
  simp [getRec, List.getElem?_concat_length]

theorem set_concat (h : Heap) (r s : ObjRec) :
    (h ++ [r]).set h.length s = h ++ [s] := by
  induction h with
  | nil => rfl
  | cons x xs ih =>
    simp only [List.cons_append, List.length_cons, List.set]
    exact congrArg (List.cons x) ih

theorem heapCopy_eq (h : Heap) (a : Nat) (id : String) :
    heapCopySideInputWithId h a id =
      (h ++ [{ own := [("sideInputId", HVal.str id)], proto := some a }],
       h.length) := by
  simp [heapCopySideInputWithId, heapSetOwn, heapDeleteOwn,
    getRec_concat_self, set_concat, setKey, removeKey]

theorem tagMany_getRec (a : Nat) (ids : List String) :
    ∀ (h : Heap), a < h.length → getRec (tagMany h a ids) a = getRec h a := by
  induction ids with
  | nil => intro h _; rfl
  | cons id rest ih =>
    intro h ha
    show getRec (tagMany (heapCopySideInputWithId h a id).1 a rest) a =
      getRec h a
    rw [heapCopy_eq]
    rw [ih _ (by simp; omega)]
    exact getRec_append_lt h _ a ha

theorem getPropFuel_succ (f : Nat) (h : Heap) (a : Nat) (k : String) :
    getPropFuel (f + 1) h a k =
      (match getRec h a with
       | none => none
       | some r =>
         match lookupKey r.own k with
         | some v => some v
         | none =>
           match r.proto with
           | none => none
           | some p => getPropFuel f h p k) := rfl

theorem heapClosed_proto {h : Heap} {r : ObjRec} {p : Nat}
    (hc : heapClosed h = true) (hr : r ∈ h) (hp : r.proto = some p) :
    p < h.length := by
  have hall : (match r.proto with
      | none => true
      | some q => decide (q < h.length)) = true :=
    List.all_eq_true.mp hc r hr
  rw [hp] at hall
  exact of_decide_eq_true hall

theorem getPropFuel_append (h : Heap) (r : ObjRec) (hc : heapClosed h = true) :
    ∀ (f : Nat) (b : Nat) (k : String), b < h.length →
      getPropFuel f (h ++ [r]) b k = getPropFuel f h b k := by
  intro f
  induction f with
  | zero => intro b k _; rfl
  | succ f ih =>
    intro b k hb
    rw [getPropFuel_succ, getPropFuel_succ, getRec_append_lt h [r] b hb]
    cases hrec : getRec h b with
    | none => rfl
    | some rec =>
      dsimp only
      cases lookupKey rec.own k with
      | some v => rfl
      | none =>
        dsimp only
        cases hp : rec.proto with
        | none => rfl
        | some pr =>
          dsimp only
          exact ih pr k (heapClosed_proto hc (List.getElem?_mem hrec) hp)

/-- C5: tag assignment is copy-only: the tagged copy is an object distinct
from the original, tagging twice yields two independent tagged values
(distinct objects, each carrying its own tag), and after any number of
taggings the original's record — in particular its sideInputId field — is
unchanged. -/
theorem copySideInput_copyOnly (h : Heap) (a : Nat) (id1 id2 : String)
    (ha : a < h.length) :
    (heapCopySideInputWithId h a id1).2 ≠ a ∧
    (heapCopySideInputWithId (heapCopySideInputWithId h a id1).1 a id2).2 ≠
      (heapCopySideInputWithId h a id1).2 ∧
    (heapCopySideInputWithId (heapCopySideInputWithId h a id1).1 a id2).2 ≠
      a ∧
    getOwn (heapCopySideInputWithId (heapCopySideInputWithId h a id1).1 a
        id2).1 (heapCopySideInputWithId h a id1).2 "sideInputId" =
      some (.str id1) ∧
    getOwn (heapCopySideInputWithId (heapCopySideInputWithId h a id1).1 a
        id2).1 (heapCopySideInputWithId (heapCopySideInputWithId h a id1).1 a
        id2).2 "sideInputId" = some (.str id2) ∧
    (∀ ids : List String, getRec (tagMany h a ids) a = getRec h a) ∧
    (∀ ids : List String,
      getOwn (tagMany h a ids) a "sideInputId" =
        getOwn h a "sideInputId") := by
  refine ⟨?_, ?_, ?_, ?_, ?_, ?_, ?_⟩
  · rw [heapCopy_eq]
    dsimp only
    omega
  · rw [heapCopy_eq, heapCopy_eq]
    dsimp only
    simp only [List.length_append, List.length_cons, List.length_nil]
    omega
  · rw [heapCopy_eq, heapCopy_eq]
    dsimp only
    simp only [List.length_append, List.length_cons, List.length_nil]
    omega
  · rw [heapCopy_eq, heapCopy_eq]
    dsimp only
    rw [getOwn, getRec_append_lt _ _ _ (by simp), getRec_concat_self]
    simp [lookupKey]
  · rw [heapCopy_eq, heapCopy_eq]
    dsimp only
    rw [getOwn, getRec_concat_self]
    simp [lookupKey]
  · exact fun ids => tagMany_getRec a ids h ha
  · intro ids
    rw [getOwn, getOwn, tagMany_getRec a ids h ha]


/-- Witness for C5: one freshly constructed SideInputParam object in the
heap, tagged twice. -/
theorem copySideInput_copyOnly_witness :
    (heapCopySideInputWithId
      [⟨[("pcoll", HVal.ref 1), ("accessor", HVal.ref 2)], none⟩]
      0 "side.a").2 ≠ 0 ∧
    getOwn (heapCopySideInputWithId (heapCopySideInputWithId
        [⟨[("pcoll", HVal.ref 1), ("accessor", HVal.ref 2)], none⟩]
        0 "side.a").1 0 "side.b").1
      (heapCopySideInputWithId
        [⟨[("pcoll", HVal.ref 1), ("accessor", HVal.ref 2)], none⟩]
        0 "side.a").2 "sideInputId" = some (.str "side.a") ∧
    getRec (tagMany
      [⟨[("pcoll", HVal.ref 1), ("accessor", HVal.ref 2)], none⟩]
      0 ["side.a", "side.b"]) 0 =
      getRec [⟨[("pcoll", HVal.ref 1), ("accessor", HVal.ref 2)], none⟩] 0 ∧
    getOwn (tagMany
      [⟨[("pcoll", HVal.ref 1), ("accessor", HVal.ref 2)], none⟩]
      0 ["side.a", "side.b"]) 0 "sideInputId" =
      getOwn [⟨[("pcoll", HVal.ref 1), ("accessor", HVal.ref 2)], none⟩] 0
        "sideInputId" :=
  ⟨(copySideInput_copyOnly _ 0 "side.a" "side.b" (by decide)).1,
   (copySideInput_copyOnly _ 0 "side.a" "side.b" (by decide)).2.2.2.1,
   (copySideInput_copyOnly _ 0 "side.a" "side.b"
     (by decide)).2.2.2.2.2.1 ["side.a", "side.b"],
   (copySideInput_copyOnly _ 0 "side.a" "side.b"
     (by decide)).2.2.2.2.2.2 ["side.a", "side.b"]⟩

theorem getProp_copy_inherits (h : Heap) (a : Nat) (id k : String)
    (ha : a < h.length) (hc : heapClosed h = true) (hk : k ≠ "sideInputId") :
    getProp (heapCopySideInputWithId h a id).1
      (heapCopySideInputWithId h a id).2 k = getProp h a k := by
  have hlk : lookupKey [("sideInputId", HVal.str id)] k = none := by
    simp only [lookupKey]
    rw [if_neg (fun he => hk he.symm)]
  have hlen : ∀ r : ObjRec, (h ++ [r]).length = h.length + 1 :=
    fun r => by simp
  rw [heapCopy_eq]
  dsimp only
  rw [getProp, hlen, getPropFuel_succ, getRec_concat_self]
  dsimp only
  rw [hlk]
  dsimp only
  exact getPropFuel_append h _ hc (h.length + 1) a k ha

/-- C10: the tagged copy shares its backing with the original through the
prototype chain: reading pcoll or accessor on the copy yields the very same
values as on the original (the delete of pcoll on the copy has no effect
because pcoll is an inherited, not own, property), while sideInputId is an
own property of the copy only. -/
theorem copySideInput_prototypeSharing (h : Heap) (a : Nat) (id : String)
    (ha : a < h.length) (hc : heapClosed h = true)
    (hsi : getOwn h a "sideInputId" = none) :
    getProp (heapCopySideInputWithId h a id).1
      (heapCopySideInputWithId h a id).2 "pcoll" = getProp h a "pcoll" ∧
    getProp (heapCopySideInputWithId h a id).1
      (heapCopySideInputWithId h a id).2 "accessor" =
      getProp h a "accessor" ∧
    getOwn (heapCopySideInputWithId h a id).1
      (heapCopySideInputWithId h a id).2 "pcoll" = none ∧
    getOwn (heapCopySideInputWithId h a id).1
      (heapCopySideInputWithId h a id).2 "sideInputId" = some (.str id) ∧
    getOwn (heapCopySideInputWithId h a id).1 a "sideInputId" = none := by
  refine ⟨getProp_copy_inherits h a id "pcoll" ha hc (by decide),
    getProp_copy_inherits h a id "accessor" ha hc (by decide), ?_, ?_, ?_⟩
  · rw [heapCopy_eq]
    dsimp only
    rw [getOwn, getRec_concat_self]
    simp [lookupKey]
  · rw [heapCopy_eq]
    dsimp only
    rw [getOwn, getRec_concat_self]
    simp [lookupKey]
  · rw [heapCopy_eq]
    dsimp only
    rw [getOwn, getRec_append_lt h _ a ha]
    rw [getOwn] at hsi
    exact hsi

/-- Witness for C10: a heap with the SideInputParam at address 0 whose own
pcoll and accessor properties reference the objects at addresses 1 and 2. -/
theorem copySideInput_prototypeSharing_witness :
    getProp (heapCopySideInputWithId
      [⟨[("pcoll", HVal.ref 1), ("accessor", HVal.ref 2)], none⟩,
       ⟨[], none⟩, ⟨[], none⟩] 0 "side.k").1
      (heapCopySideInputWithId
      [⟨[("pcoll", HVal.ref 1), ("accessor", HVal.ref 2)], none⟩,
       ⟨[], none⟩, ⟨[], none⟩] 0 "side.k").2 "pcoll" =
      getProp [⟨[("pcoll", HVal.ref 1), ("accessor", HVal.ref 2)], none⟩,
       ⟨[], none⟩, ⟨[], none⟩] 0 "pcoll" ∧
    getOwn (heapCopySideInputWithId
      [⟨[("pcoll", HVal.ref 1), ("accessor", HVal.ref 2)], none⟩,
       ⟨[], none⟩, ⟨[], none⟩] 0 "side.k").1
      (heapCopySideInputWithId
      [⟨[("pcoll", HVal.ref 1), ("accessor", HVal.ref 2)], none⟩,
       ⟨[], none⟩, ⟨[], none⟩] 0 "side.k").2 "sideInputId" =
      some (.str "side.k") ∧
    getOwn (heapCopySideInputWithId
      [⟨[("pcoll", HVal.ref 1), ("accessor", HVal.ref 2)], none⟩,
       ⟨[], none⟩, ⟨[], none⟩] 0 "side.k").1 0 "sideInputId" = none :=
  ⟨(copySideInput_prototypeSharing _ 0 "side.k" (by decide) (by decide)
      (by decide)).1,
   (copySideInput_prototypeSharing _ 0 "side.k" (by decide) (by decide)
      (by decide)).2.2.2.1,
   (copySideInput_prototypeSharing _ 0 "side.k" (by decide) (by decide)
      (by decide)).2.2.2.2⟩

end LocalParDo
